import Mathlib

/-!
# Verification of manga-cli (src/main.rs)

A shallow embedding of the manga-cli program: a command-line manga downloader
that searches a site, prompts for a selection, downloads a chapter's images
into a staging directory and optionally packs them into a PDF or CBZ archive.

Modelling conventions:
* The staging directory's numbered files `1.jpg, 2.jpg, ...` are modelled as a
  map `Nat → Option (List Nat)` from index to file bytes (`none` = absent), or,
  where only existence matters, as a predicate `Nat → Bool`.
* Fallible I/O operations (HTTP fetches, `fs::read`, zip writes, the external
  `magick` process) are parametrised by outcome oracles, so a theorem
  quantifying over the oracle covers every filesystem/network outcome.
* Rust `usize` arithmetic is modelled on `Nat`; subtraction is checked and
  yields a panic value on underflow (Rust declares unsigned overflow a program
  error; debug builds detect it with a panic, which is what we model).
* `String`s are modelled by Lean `String`s, with character-level operations on
  their `List Char` data where the Rust code operates per character.
-/

namespace MangaCli

/-- `IMAGE_DIR` constant of main.rs (line 35): the fixed staging directory. -/
def IMAGE_DIR : String := ".cache/manga-cli"

/-- `SEARCH_URL` constant of main.rs (line 34). -/
def SEARCH_URL : String := "https://m.manganelo.com/search/story/"

/-! ## Name normalization (`format_manga_name`, main.rs lines 203-205) -/

/-- Rust `str::replace` with a single-character pattern and a single-character
replacement: replaces every occurrence of the pattern character. -/
def rustReplaceChar (pat rep : Char) (s : List Char) : List Char :=
  s.map (fun c => if c = pat then rep else c)

/-- `format_manga_name` (main.rs line 204):
`manga_name.replace(" ", "_").replace("-", "_")`. -/
def format_manga_name (s : String) : String :=
  String.mk (rustReplaceChar '-' '_' (rustReplaceChar ' ' '_' s.data))

/-! ## The contiguous image scan shared by both archive builders -/

/-- The scanning loop `for i in 1..=1000 { if <i.jpg exists> { push } else { break } }`
of `create_pdf` (main.rs lines 134-141) and `create_cbz` (lines 167-177),
as a function of the existence predicate of the numbered files.
`fuel` is the number of loop iterations still allowed, `i` the current index. -/
def scanFrom (ex : Nat → Bool) : Nat → Nat → List Nat
  | 0, _ => []
  | fuel + 1, i => if ex i then i :: scanFrom ex fuel (i + 1) else []

/-- The indices of the staging files an archive builder includes: the loop run
from index 1 with the fixed bound of 1000 iterations. -/
def scanImages (ex : Nat → Bool) : List Nat :=
  scanFrom ex 1000 1

/-- Path string `"{IMAGE_DIR}/{i}.jpg"` built by the scanning loops. -/
def imgPath (i : Nat) : String :=
  IMAGE_DIR ++ "/" ++ Nat.repr i ++ ".jpg"

/-! ## Archive builders (`create_pdf`, main.rs lines 130-160; `create_cbz`, lines 162-182) -/

/-- `create_pdf` (main.rs lines 130-160), as a function of the existence
predicate `ex` of the numbered staging files and of the exit outcome
`magickOk` of the external `magick` process. On success it returns the list of
image paths that were passed to `magick` (the images included in the PDF). -/
def create_pdf (ex : Nat → Bool) (magickOk : Bool) : Except String (List String) :=
  let images := (scanImages ex).map imgPath
  if images.isEmpty then
    Except.error "No images found to convert to PDF."
  else if magickOk then
    Except.ok images
  else
    Except.error "Failed to create PDF"

/-- Observable outcome of `create_cbz`: whether `File::create` ran on
`output.cbz` (creating or truncating it), the zip entries fully written into
it (index and bytes), whether `zip.finish()` completed, and the returned
`Result`. -/
structure CbzOutcome where
  outputCreated : Bool
  entries : List (Nat × List Nat)
  finished : Bool
  result : Except String Unit
deriving Repr

/-- The `for i in 1..=1000` loop of `create_cbz` (main.rs lines 167-177).
`ex` is the existence predicate of the numbered staging files, `readRes i` the
outcome of `fs::read` on `i.jpg`, `startOk i` / `writeOk i` the outcomes of
`zip.start_file` / `zip.write_all` for entry `i`. Returns the loop's result
(`?` propagates the first failure) and the entries written so far. -/
def cbzLoop (ex : Nat → Bool) (readRes : Nat → Except String (List Nat))
    (startOk writeOk : Nat → Bool) :
    Nat → Nat → List (Nat × List Nat) → Except String Unit × List (Nat × List Nat)
  | 0, _, acc => (Except.ok (), acc)
  | fuel + 1, i, acc =>
    if ex i then
      if startOk i then
        match readRes i with
        | Except.ok data =>
          if writeOk i then
            cbzLoop ex readRes startOk writeOk fuel (i + 1) (acc ++ [(i, data)])
          else
            (Except.error "zip write failed", acc)
        | Except.error e => (Except.error e, acc)
      else
        (Except.error "zip start_file failed", acc)
    else
      (Except.ok (), acc)

/-- `create_cbz` (main.rs lines 162-182): creates `output.cbz` first
(`createOk` is the outcome of `File::create`), then runs the scanning loop
writing one zip entry per existing numbered file, then finalizes the archive
(`finishOk` is the outcome of `zip.finish()`). -/
def create_cbz (createOk : Bool) (ex : Nat → Bool)
    (readRes : Nat → Except String (List Nat)) (startOk writeOk : Nat → Bool)
    (finishOk : Bool) : CbzOutcome :=
  if createOk then
    match cbzLoop ex readRes startOk writeOk 1000 1 [] with
    | (Except.error e, es) =>
      { outputCreated := true, entries := es, finished := false
        result := Except.error e }
    | (Except.ok _, es) =>
      if finishOk then
        { outputCreated := true, entries := es, finished := true
          result := Except.ok () }
      else
        { outputCreated := true, entries := es, finished := false
          result := Except.error "zip finish failed" }
  else
    { outputCreated := false, entries := [], finished := false
      result := Except.error "file create failed" }

/-! ## HTML extraction (`fetch_manga_ids`, main.rs lines 71-78;
`fetch_image_links`, lines 110-116) -/

mutual
/-- A node of the parsed HTML document tree, the `select` crate's view: an
element with tag name, attribute list and child forest, or a text node. -/
inductive HNode where
  | elem (tag : String) (attrs : List (String × String)) (children : HForest)
  | text (s : String)
/-- A sequence of sibling HTML nodes, in document order. -/
inductive HForest where
  | nil
  | cons (head : HNode) (tail : HForest)
end

/-- `node.attr(name)` of the `select` crate: the value of the attribute when
present on an element node. -/
def HNode.attr (name : String) : HNode → Option String
  | HNode.text _ => none
  | HNode.elem _ attrs _ => (attrs.find? (fun p => p.1 == name)).map Prod.snd

mutual
/-- The nodes of a subtree matching `Name(tag)`, in document (preorder)
order, the subtree's root included — `document.find(Name(tag))` restricted
to one subtree. -/
def findAll (tag : String) : HNode → List HNode
  | HNode.text _ => []
  | HNode.elem t a cs =>
    (if t == tag then [HNode.elem t a cs] else []) ++ findAllForest tag cs
/-- The matching nodes of a forest, in document order; on the document's root
forest this is `document.find(Name(tag))`. -/
def findAllForest (tag : String) : HForest → List HNode
  | HForest.nil => []
  | HForest.cons c cs => findAll tag c ++ findAllForest tag cs
end

/-- `node.find(Name(tag))` on a single node: the matching descendants of the
node (the node itself excluded), in document order. -/
def findDesc (tag : String) : HNode → List HNode
  | HNode.text _ => []
  | HNode.elem _ _ cs => findAllForest tag cs

/-- The extraction of `fetch_manga_ids` (main.rs lines 71-76): all `h3`
elements of the document in document order, each narrowed to its first `a`
descendant, keeping the `href` values. -/
def fetch_manga_ids_extract (doc : HForest) : List String :=
  ((findAllForest "h3" doc).filterMap (fun n => (findDesc "a" n).head?)).filterMap
    (HNode.attr "href")

/-- The extraction of `fetch_image_links` (main.rs lines 110-114): the `src`
values of all `img` elements of the document, in document order. -/
def fetch_image_links_extract (doc : HForest) : List String :=
  (findAllForest "img" doc).filterMap (HNode.attr "src")

/-- The target attribute value of a title container: the `href` of its first
`a` descendant, if both exist. -/
def titleTarget (n : HNode) : Option String :=
  ((findDesc "a" n).head?).bind (HNode.attr "href")

/-- The target attribute value of an image container: its own `src`. -/
def imgTarget (n : HNode) : Option String :=
  HNode.attr "src" n

/-! ## Selection and chapter reference (main.rs lines 53-57) -/

/-- Panic outcomes of main's selection arithmetic and indexing. -/
inductive Panic where
  | subOverflow
  | indexOutOfBounds
deriving Repr, DecidableEq

/-- Rust `usize` subtraction `a - b`: underflow is a program error, detected
as a panic ("attempt to subtract with overflow"). -/
def checkedSubUsize (a b : Nat) : Except Panic Nat :=
  if b ≤ a then Except.ok (a - b) else Except.error Panic.subOverflow

/-- Rust indexing `&xs[i]`: panics when `i` is out of bounds. -/
def indexUsize (xs : List String) (i : Nat) : Except Panic String :=
  if h : i < xs.length then Except.ok (xs.get ⟨i, h⟩)
  else Except.error Panic.indexOutOfBounds

/-- main.rs lines 53-54:
`let manga_number: usize = prompt("Enter number: ") - 1;`
`let manga_link = &manga_ids[manga_number];`
as a function of the search results and the prompt's returned number. -/
def selectManga (manga_ids : List String) (selection : Nat) : Except Panic String :=
  match checkedSubUsize selection 1 with
  | Except.error p => Except.error p
  | Except.ok idx => indexUsize manga_ids idx

/-- main.rs line 57:
`let chapter_link = format!("{}/chapter-{}", manga_link, chapter_number);`. -/
def chapterLink (manga_link : String) (chapter_number : Nat) : String :=
  manga_link ++ "/chapter-" ++ Nat.repr chapter_number

/-- main.rs lines 53-57 composed: from the fetched search results and the two
prompt results to the chapter reference handed to `download_chapter`. -/
def mainChapterLink (manga_ids : List String) (selection chapter_number : Nat) :
    Except Panic String :=
  match selectManga manga_ids selection with
  | Except.error p => Except.error p
  | Except.ok manga_link => Except.ok (chapterLink manga_link chapter_number)

/-! ## Cache clearing (`clear_cache`, main.rs lines 184-190) -/

/-- Outcome of `fs::remove_dir_all(IMAGE_DIR)`: succeeds iff the staging
directory exists and the recursive removal hits no I/O failure. -/
def remove_dir_all (dirExists ioOk : Bool) : Except String Unit :=
  if dirExists && ioOk then Except.ok ()
  else Except.error "remove_dir_all failed"

/-- `clear_cache` (main.rs lines 184-190): inspects only `is_ok()` of the
removal and returns a user-facing message; its type carries no error, so no
filesystem outcome propagates to the caller (main.rs lines 40-43 just call it
and return). -/
def clear_cache (dirExists ioOk : Bool) : String :=
  match remove_dir_all dirExists ioOk with
  | Except.ok _ => "Cleared cache."
  | Except.error _ => "No cache to clear."

/-! ## The numeric prompt (`prompt`, main.rs lines 192-201) -/

/-- `str::trim` (main.rs line 197): strips leading and trailing whitespace
(modelled for the ASCII whitespace characters, all of which
`char::is_whitespace` includes). -/
def trimChars (s : List Char) : List Char :=
  ((s.dropWhile Char.isWhitespace).reverse.dropWhile Char.isWhitespace).reverse

/-- Numeric value of a digit string. -/
def digitsVal (l : List Char) : Nat :=
  l.foldl (fun a c => 10 * a + (c.toNat - '0'.toNat)) 0

/-- `usize::MAX` on a 64-bit target. -/
def USIZE_MAX : Nat := 2 ^ 64 - 1

/-- `input.trim().parse::<usize>()` (main.rs line 197): trims the line,
allows one optional leading `'+'`, then requires a nonempty all-digit string
whose value fits in `usize`; anything else is a parse error (`none`). -/
def parse_usize (s : List Char) : Option Nat :=
  let t := trimChars s
  let digits := if t.head? = some '+' then t.tail else t
  if digits.isEmpty then none
  else if digits.all Char.isDigit then
    if digitsVal digits ≤ USIZE_MAX then some (digitsVal digits) else none
  else none

/-- `prompt` (main.rs lines 192-201) run against an input stream: `stream k`
is the content of the `k`-th line read from stdin; on a parse failure the
function re-prompts by a recursive self-call on the next line. `fuel` bounds
how many reads we unfold, so that non-termination is observable as `none`
for every fuel. -/
def promptFrom (stream : Nat → List Char) : Nat → Nat → Option Nat
  | 0, _ => none
  | fuel + 1, k =>
    match parse_usize (stream k) with
    | some n => some n
    | none => promptFrom stream fuel (k + 1)

/-- Witness input stream: first line `"abc"` (malformed), then `"42"`. -/
def promptStreamA : Nat → List Char :=
  fun k => if k = 0 then "abc".data else "42".data

/-- Witness input stream: every line malformed. -/
def promptStreamB : Nat → List Char :=
  fun _ => "not a number".data

/-! ## Chapter download (`download_chapter`, main.rs lines 81-100) -/

/-- `fs::write` of a numbered staging file: store bytes under index `i`,
leaving every other index alone. -/
def fsWrite (fs : Nat → Option (List Nat)) (i : Nat) (data : List Nat) :
    Nat → Option (List Nat) :=
  fun j => if j = i then some data else fs j

/-- `create_image_directory` (main.rs lines 125-128): `fs::create_dir_all`
creates the staging directory if absent and touches no file in it — the
identity on the numbered-file map. -/
def create_image_directory (fs : Nat → Option (List Nat)) :
    Nat → Option (List Nat) := fs

/-- The download loop of `download_chapter` (main.rs lines 88-91): the `k`-th
extracted image URL (0-based) is fetched and written to `(k+1).jpg`; `fetch`
is the outcome oracle of `download_image` (network fetch plus write), `i` the
1-based index of the next file. A failure aborts the loop via `?`, leaving
the earlier writes in place. -/
def downloadLoop (fetch : String → Except String (List Nat)) :
    List String → Nat → (Nat → Option (List Nat)) →
      Except String Unit × (Nat → Option (List Nat))
  | [], _, fs => (Except.ok (), fs)
  | url :: rest, i, fs =>
    match fetch url with
    | Except.ok data => downloadLoop fetch rest (i + 1) (fsWrite fs i data)
    | Except.error e => (Except.error e, fs)

/-- `download_chapter`'s effect on the staging directory (main.rs lines
81-100): ensure the directory exists, then download the extracted images to
`1.jpg..N.jpg` in extraction order. (The optional archive-building step that
follows writes no numbered file.) -/
def download_chapter_fs (fetch : String → Except String (List Nat))
    (images : List String) (fs : Nat → Option (List Nat)) :
    Except String Unit × (Nat → Option (List Nat)) :=
  downloadLoop fetch images 1 (create_image_directory fs)

/-- Existence predicate of the numbered files of a staging-directory state,
as consumed by the archive builders' scan. -/
def fsEx (fs : Nat → Option (List Nat)) : Nat → Bool :=
  fun i => (fs i).isSome

/-! ## Helper lemmas -/

lemma mem_scanFrom_iff (ex : Nat → Bool) (fuel start i : Nat) :
    i ∈ scanFrom ex fuel start ↔
      start ≤ i ∧ i < start + fuel ∧ ∀ j, start ≤ j → j ≤ i → ex j = true := by
  induction fuel generalizing start with
  | zero =>
    simp only [scanFrom, List.not_mem_nil, false_iff]
    rintro ⟨h1, h2, -⟩
    omega
  | succ fuel ih =>
    rw [scanFrom]
    by_cases hex : ex start = true
    · rw [if_pos hex, List.mem_cons, ih]
      constructor
      · rintro (h | ⟨h1, h2, h3⟩)
        · subst h
          refine ⟨le_refl _, by omega, fun j hj hj' => ?_⟩
          have hji : j = i := le_antisymm hj' hj
          rw [hji]
          exact hex
        · refine ⟨by omega, by omega, fun j hj hj' => ?_⟩
          rcases Nat.eq_or_lt_of_le hj with h | h
          · rw [← h]; exact hex
          · exact h3 j (by omega) hj'
      · rintro ⟨h1, h2, h3⟩
        rcases Nat.eq_or_lt_of_le h1 with h | h
        · exact Or.inl h.symm
        · exact Or.inr ⟨by omega, by omega, fun j hj hj' => h3 j (by omega) hj'⟩
    · rw [if_neg hex]
      simp only [List.not_mem_nil, false_iff]
      rintro ⟨h1, -, h3⟩
      exact hex (h3 start (le_refl _) h1)

/-- Membership characterization of the archive builders' scan: exactly the
indices `i` with `1 ≤ i ≤ 1000` such that every index from 1 up to `i` exists. -/
lemma mem_scanImages_iff (ex : Nat → Bool) (i : Nat) :
    i ∈ scanImages ex ↔
      1 ≤ i ∧ i ≤ 1000 ∧ ∀ j, 1 ≤ j → j ≤ i → ex j = true := by
  rw [scanImages, mem_scanFrom_iff]
  constructor <;> (rintro ⟨h1, h2, h3⟩; exact ⟨by omega, by omega, h3⟩)

/-- When every I/O step succeeds, the cbz loop writes one entry per scanned
index, in scan order. -/
lemma cbzLoop_ok_entries (ex : Nat → Bool) (content : Nat → List Nat)
    (fuel i : Nat) (acc : List (Nat × List Nat)) :
    cbzLoop ex (fun j => Except.ok (content j)) (fun _ => true) (fun _ => true)
        fuel i acc =
      (Except.ok (), acc ++ (scanFrom ex fuel i).map (fun j => (j, content j))) := by
  induction fuel generalizing i acc with
  | zero => simp [cbzLoop, scanFrom]
  | succ fuel ih =>
    rw [cbzLoop, scanFrom]
    by_cases hex : ex i = true
    · rw [if_pos hex, if_pos hex]
      simp only [if_true, ih, List.map_cons, List.append_assoc, List.cons_append,
        List.nil_append]
    · rw [if_neg hex, if_neg hex]
      simp

/-- **C1.** Both archive builders include exactly the contiguous run of files
`1.jpg, 2.jpg, ...` starting at index 1 and stopping at the first missing
index, never scanning past index 1000: an index is scanned iff it lies in
`[1, 1000]` and every index from 1 up to it exists; the image list `create_pdf`
hands to `magick` and the entry indices `create_cbz` writes are exactly the
scanned run; and on files `{1.jpg, 2.jpg, 4.jpg}` exactly `{1, 2}` are
included (`4.jpg`, beyond the gap at 3, is excluded). -/
theorem scan_contiguous_run :
    (∀ (ex : Nat → Bool) (i : Nat),
        i ∈ scanImages ex ↔
          1 ≤ i ∧ i ≤ 1000 ∧ ∀ j, 1 ≤ j → j ≤ i → ex j = true)
  ∧ (∀ (ex : Nat → Bool) (magickOk : Bool) (l : List String),
        create_pdf ex magickOk = Except.ok l → l = (scanImages ex).map imgPath)
  ∧ (∀ (ex : Nat → Bool) (content : Nat → List Nat),
        (create_cbz true ex (fun j => Except.ok (content j)) (fun _ => true)
            (fun _ => true) true).entries.map Prod.fst = scanImages ex)
  ∧ scanImages (fun i => i == 1 || i == 2 || i == 4) = [1, 2] := by
  refine ⟨mem_scanImages_iff, ?_, ?_, by decide⟩
  · intro ex magickOk l h
    simp only [create_pdf] at h
    split at h
    · cases h
    · split at h
      · cases h
        rfl
      · cases h
  · intro ex content
    simp only [create_cbz, cbzLoop_ok_entries, List.nil_append, if_true]
    simp only [List.map_map, scanImages]
    have hcomp : (Prod.fst ∘ fun j : Nat => (j, content j)) = id := by
      funext j
      rfl
    rw [hcomp, List.map_id]

/-- Witness for C1: the part with hypotheses applied at concrete inputs:
files `{1, 2, 4}` present, `magick` succeeding. -/
theorem scan_contiguous_run_witness :
    (1 ≤ 2 ∧ 2 ≤ 1000 ∧
        ∀ j, 1 ≤ j → j ≤ 2 → (fun i => i == 1 || i == 2 || i == 4) j = true)
    ∧ [imgPath 1, imgPath 2] =
        (scanImages (fun i => i == 1 || i == 2 || i == 4)).map imgPath :=
  ⟨(scan_contiguous_run.1 (fun i => i == 1 || i == 2 || i == 4) 2).mp (by decide),
   scan_contiguous_run.2.1 (fun i => i == 1 || i == 2 || i == 4) true
     [imgPath 1, imgPath 2] rfl⟩

/-- **C2.** With zero images (the scan is empty, equivalently `1.jpg` is
absent), `create_pdf` fails with exactly the error
`"No images found to convert to PDF."`, while `create_cbz` succeeds and still
emits an (empty) `output.cbz`: its result is `ok`, it writes no entries, and
the output file was created and finalized. -/
theorem empty_input_pdf_vs_cbz :
    (∀ (ex : Nat → Bool) (magickOk : Bool), scanImages ex = [] →
        create_pdf ex magickOk = Except.error "No images found to convert to PDF.")
  ∧ (∀ (ex : Nat → Bool) readRes startOk writeOk, ex 1 = false →
        (create_cbz true ex readRes startOk writeOk true).result = Except.ok () ∧
        (create_cbz true ex readRes startOk writeOk true).entries = [] ∧
        (create_cbz true ex readRes startOk writeOk true).outputCreated = true ∧
        (create_cbz true ex readRes startOk writeOk true).finished = true)
  ∧ (∀ ex : Nat → Bool, scanImages ex = [] ↔ ex 1 = false) := by
  refine ⟨?_, ?_, ?_⟩
  · intro ex magickOk h
    simp [create_pdf, h]
  · intro ex readRes startOk writeOk h1
    have hloop : cbzLoop ex readRes startOk writeOk 1000 1 [] =
        (Except.ok (), []) := by
      rw [show (1000 : Nat) = 999 + 1 from rfl, cbzLoop, if_neg (by simp [h1])]
    simp [create_cbz, hloop]
  · intro ex
    constructor
    · intro h
      by_contra hne
      simp only [Bool.not_eq_false] at hne
      rw [scanImages, show (1000 : Nat) = 999 + 1 from rfl, scanFrom,
        if_pos hne] at h
      cases h
    · intro h
      rw [scanImages, show (1000 : Nat) = 999 + 1 from rfl, scanFrom,
        if_neg (by simp [h])]

/-- Witness for C2: no staging file exists at all. -/
theorem empty_input_pdf_vs_cbz_witness :
    create_pdf (fun _ => false) true =
      Except.error "No images found to convert to PDF."
    ∧ (create_cbz true (fun _ => false) (fun _ => Except.ok []) (fun _ => true)
        (fun _ => true) true).result = Except.ok () :=
  ⟨empty_input_pdf_vs_cbz.1 (fun _ => false) true rfl,
   (empty_input_pdf_vs_cbz.2.1 (fun _ => false) (fun _ => Except.ok [])
     (fun _ => true) (fun _ => true) rfl).1⟩

/-- **C10.** `create_cbz` creates (truncating any existing) `output.cbz`
before reading or writing any image entry: whenever `File::create` succeeds,
the output file has been created no matter how the subsequent reads and
writes turn out; and whenever the operation then returns an error, the
created (partial, unfinalized) `output.cbz` is left on disk — CBZ
construction is not atomic on error. -/
theorem cbz_not_atomic_on_error :
    (∀ ex readRes startOk writeOk finishOk,
        (create_cbz true ex readRes startOk writeOk finishOk).outputCreated = true)
  ∧ (∀ ex readRes startOk writeOk finishOk e,
        (create_cbz true ex readRes startOk writeOk finishOk).result =
            Except.error e →
          (create_cbz true ex readRes startOk writeOk finishOk).outputCreated = true ∧
          (create_cbz true ex readRes startOk writeOk finishOk).finished = false) := by
  have hoc : ∀ ex readRes startOk writeOk finishOk,
      (create_cbz true ex readRes startOk writeOk finishOk).outputCreated = true := by
    intro ex readRes startOk writeOk finishOk
    rw [create_cbz]
    rcases cbzLoop ex readRes startOk writeOk 1000 1 [] with ⟨r, es⟩
    cases r with
    | error e => rfl
    | ok u =>
      cases finishOk <;> rfl
  have hfin : ∀ ex readRes startOk writeOk finishOk,
      (create_cbz true ex readRes startOk writeOk finishOk).finished = false ∨
      (create_cbz true ex readRes startOk writeOk finishOk).result =
        Except.ok () := by
    intro ex readRes startOk writeOk finishOk
    rw [create_cbz]
    rcases cbzLoop ex readRes startOk writeOk 1000 1 [] with ⟨r, es⟩
    cases r with
    | error e' => exact Or.inl rfl
    | ok u =>
      cases finishOk with
      | false => exact Or.inl rfl
      | true => exact Or.inr rfl
  refine ⟨hoc, ?_⟩
  intro ex readRes startOk writeOk finishOk e h
  refine ⟨hoc ex readRes startOk writeOk finishOk, ?_⟩
  rcases hfin ex readRes startOk writeOk finishOk with hf | hok
  · exact hf
  · rw [hok] at h
    simp at h

/-- Witness for C10: a run in which every staging file exists but the very
first `fs::read` fails. -/
theorem cbz_not_atomic_on_error_witness :
    (create_cbz true (fun _ => true) (fun _ => Except.error "read failed")
        (fun _ => true) (fun _ => true) true).outputCreated = true ∧
    (create_cbz true (fun _ => true) (fun _ => Except.error "read failed")
        (fun _ => true) (fun _ => true) true).finished = false :=
  cbz_not_atomic_on_error.2 (fun _ => true) (fun _ => Except.error "read failed")
    (fun _ => true) (fun _ => true) true "read failed" rfl

lemma format_manga_name_data (s : String) :
    (format_manga_name s).data =
      s.data.map (fun c => if c = ' ' ∨ c = '-' then '_' else c) := by
  show rustReplaceChar '-' '_' (rustReplaceChar ' ' '_' s.data) = _
  rw [rustReplaceChar, rustReplaceChar, List.map_map]
  refine List.map_congr_left ?_
  intro c _
  by_cases h1 : c = ' '
  · subst h1
    decide
  · by_cases h2 : c = '-'
    · subst h2
      decide
    · simp [h1, h2]

lemma selectManga_ok (ids : List String) (sel : Nat) (mlink : String)
    (h : selectManga ids sel = Except.ok mlink) :
    ∃ hlt : sel - 1 < ids.length, mlink = ids.get ⟨sel - 1, hlt⟩ := by
  rw [selectManga, checkedSubUsize] at h
  by_cases h1 : 1 ≤ sel
  · rw [if_pos h1] at h
    have h' : indexUsize ids (sel - 1) = Except.ok mlink := h
    rw [indexUsize] at h'
    by_cases h2 : sel - 1 < ids.length
    · rw [dif_pos h2] at h'
      cases h'
      exact ⟨h2, rfl⟩
    · rw [dif_neg h2] at h'
      cases h'
  · rw [if_neg h1] at h
    have h' : (Except.error Panic.subOverflow : Except Panic String) =
        Except.ok mlink := h
    cases h'

/-- **C4.** `format_manga_name` maps every space and every hyphen of its input
to an underscore and leaves all other characters unchanged (it is the
character-wise map sending `' '` and `'-'` to `'_'`), and it is idempotent. -/
theorem format_manga_name_spec :
    (∀ s : String, (format_manga_name s).data =
        s.data.map (fun c => if c = ' ' ∨ c = '-' then '_' else c))
  ∧ (∀ s : String,
        format_manga_name (format_manga_name s) = format_manga_name s) := by
  refine ⟨format_manga_name_data, ?_⟩
  intro s
  apply String.ext
  rw [format_manga_name_data, format_manga_name_data, List.map_map]
  refine List.map_congr_left ?_
  intro c _
  by_cases h1 : c = ' '
  · subst h1
    decide
  · by_cases h2 : c = '-'
    · subst h2
      decide
    · simp [h1, h2]

/-- **C5.** The chapter reference used for the chapter fetch is the pure
string composition of the chosen manga link and the user-supplied chapter
number: `chapterLink l c` is literally `l` followed by `"/chapter-"` followed
by the decimal rendering of `c`, and whenever main's selection succeeds the
reference handed to `download_chapter` is exactly that composition of the
selected link — no further validation intervenes. -/
theorem chapter_reference_composition :
    (∀ (l : String) (c : Nat),
        (chapterLink l c).data = l.data ++ "/chapter-".data ++ (Nat.repr c).data)
  ∧ (∀ (manga_ids : List String) (selection chapter : Nat) (link : String),
        mainChapterLink manga_ids selection chapter = Except.ok link →
        ∃ hlt : selection - 1 < manga_ids.length,
          link = manga_ids.get ⟨selection - 1, hlt⟩ ++ "/chapter-" ++
            Nat.repr chapter) := by
  constructor
  · intro l c
    rw [chapterLink, String.data_append, String.data_append]
  · intro ids sel ch link h
    rw [mainChapterLink] at h
    cases hsel : selectManga ids sel with
    | error p =>
      rw [hsel] at h
      cases h
    | ok mlink =>
      rw [hsel] at h
      cases h
      rcases selectManga_ok ids sel mlink hsel with ⟨hlt, hget⟩
      exact ⟨hlt, by rw [hget, chapterLink]⟩

/-- Witness for C5: one search result `"/m1"`, selection `1`, chapter `12`. -/
theorem chapter_reference_composition_witness :
    ∃ hlt : 1 - 1 < (["/m1"] : List String).length,
      "/m1/chapter-12" = (["/m1"] : List String).get ⟨1 - 1, hlt⟩ ++
        "/chapter-" ++ Nat.repr 12 :=
  chapter_reference_composition.2 ["/m1"] 1 12 "/m1/chapter-12" rfl

/-- **C6.** `clear_cache` never propagates an error: for every outcome of
removing the staging directory it returns one of the two user-facing messages
(its result type is a plain message, not a `Result`), it reports
`"Cleared cache."` exactly when the removal succeeded, and removing a
nonexistent staging directory yields the benign `"No cache to clear."`
message, not a failure. -/
theorem clear_cache_never_fails :
    (∀ dirExists ioOk : Bool,
        clear_cache dirExists ioOk = "Cleared cache." ∨
        clear_cache dirExists ioOk = "No cache to clear.")
  ∧ (∀ ioOk : Bool, clear_cache false ioOk = "No cache to clear.")
  ∧ (∀ dirExists ioOk : Bool,
        (clear_cache dirExists ioOk = "Cleared cache." ↔
          (remove_dir_all dirExists ioOk).isOk = true)) := by
  refine ⟨?_, ?_, ?_⟩ <;> decide

/-- **C8.** At the manga-selection prompt, entering `0` panics with an
unsigned-integer underflow while computing the zero-based index, for every
list of search results — before any bounds check or indexing — and this is a
distinct failure from the out-of-range indexing panic raised for selections
greater than the result count. -/
theorem zero_selection_underflow_panic :
    (∀ manga_ids : List String,
        selectManga manga_ids 0 = Except.error Panic.subOverflow)
  ∧ (∀ (manga_ids : List String) (sel : Nat), 1 ≤ sel → manga_ids.length < sel →
        selectManga manga_ids sel = Except.error Panic.indexOutOfBounds)
  ∧ Panic.subOverflow ≠ Panic.indexOutOfBounds := by
  refine ⟨fun ids => rfl, ?_, by decide⟩
  intro ids sel h1 h2
  have h' : selectManga ids sel = indexUsize ids (sel - 1) := by
    rw [selectManga, checkedSubUsize, if_pos h1]
  rw [h', indexUsize, dif_neg (by omega)]

/-- Witness for C8: one search result, selections `0` and `2`. -/
theorem zero_selection_underflow_panic_witness :
    selectManga ["/m1"] 0 = Except.error Panic.subOverflow ∧
    selectManga ["/m1"] 2 = Except.error Panic.indexOutOfBounds :=
  ⟨zero_selection_underflow_panic.1 ["/m1"],
   zero_selection_underflow_panic.2.1 ["/m1"] 2 (by decide) (by decide)⟩

/-- **C7.** `prompt` returns the numeric value of the first input line that
parses as a whole number, re-prompting on every earlier line that fails to
parse: if line `i` is the first parsing line, the prompt terminates (for any
fuel beyond `i`) with that line's value; and on a stream with no parsing line
it never returns (no fuel suffices — infinite retry, no cancellation). -/
theorem prompt_first_parse :
    (∀ (stream : Nat → List Char) (i v : Nat),
        parse_usize (stream i) = some v →
        (∀ j, j < i → parse_usize (stream j) = none) →
        ∀ fuel, i < fuel → promptFrom stream fuel 0 = some v)
  ∧ (∀ stream : Nat → List Char,
        (∀ i, parse_usize (stream i) = none) →
        ∀ fuel k, promptFrom stream fuel k = none) := by
  constructor
  · intro stream i v hp hn
    have key : ∀ fuel k, k ≤ i → i < k + fuel → promptFrom stream fuel k = some v := by
      intro fuel
      induction fuel with
      | zero =>
        intro k hk1 hk2
        omega
      | succ fuel ih =>
        intro k hk1 hk2
        rcases Nat.eq_or_lt_of_le hk1 with he | hlt
        · rw [promptFrom, he, hp]
        · rw [promptFrom, hn k hlt]
          exact ih (k + 1) (by omega) (by omega)
    intro fuel hf
    exact key fuel 0 (Nat.zero_le i) (by omega)
  · intro stream h fuel
    induction fuel with
    | zero =>
      intro k
      rfl
    | succ fuel ih =>
      intro k
      rw [promptFrom, h k]
      exact ih (k + 1)

/-- Witness for C7: on the stream `"abc", "42", "42", ...` the prompt returns
`42`; on the all-malformed stream it returns for no fuel (shown at fuel 5). -/
theorem prompt_first_parse_witness :
    promptFrom promptStreamA 5 0 = some 42 ∧ promptFrom promptStreamB 5 0 = none :=
  ⟨prompt_first_parse.1 promptStreamA 1 42 (by decide)
      (fun j hj => by
        have hj0 : j = 0 := by omega
        subst hj0
        decide) 5 (by decide),
   prompt_first_parse.2 promptStreamB
     (fun i => by
       have h : parse_usize ("not a number".data) = none := by decide
       exact h) 5 0⟩

lemma downloadLoop_frame (fetch : String → Except String (List Nat))
    (images : List String) :
    ∀ (i : Nat) (fs : Nat → Option (List Nat)) (j : Nat),
      j < i ∨ i + images.length ≤ j →
      (downloadLoop fetch images i fs).2 j = fs j := by
  induction images with
  | nil =>
    intro i fs j hj
    rfl
  | cons url rest ih =>
    intro i fs j hj
    simp only [List.length_cons] at hj
    rw [downloadLoop]
    cases hf : fetch url with
    | ok data =>
      rw [ih (i + 1) (fsWrite fs i data) j (by omega)]
      rw [fsWrite]
      exact if_neg (by omega)
    | error e =>
      rfl

lemma downloadLoop_writes (content : String → List Nat) (images : List String) :
    ∀ (i : Nat) (fs : Nat → Option (List Nat)) (j : Nat),
      i ≤ j → j < i + images.length →
      ((downloadLoop (fun u => Except.ok (content u)) images i fs).2 j).isSome
        = true := by
  induction images with
  | nil =>
    intro i fs j h1 h2
    simp only [List.length_nil, Nat.add_zero] at h2
    omega
  | cons url rest ih =>
    intro i fs j h1 h2
    simp only [List.length_cons] at h2
    show ((downloadLoop (fun u => Except.ok (content u)) rest (i + 1)
        (fsWrite fs i (content url))).2 j).isSome = true
    by_cases hji : j = i
    · subst hji
      rw [downloadLoop_frame _ rest (j + 1) _ j (Or.inl (by omega))]
      rw [fsWrite]
      rw [if_pos rfl]
      rfl
    · exact ih (i + 1) (fsWrite fs i (content url)) j (by omega) (by omega)

/-- **C9.** `download_chapter` never clears or truncates the staging
directory: whatever the download outcomes, every index outside `1..N` (for
the `N` freshly extracted images) keeps its previous contents; consequently,
when the downloads succeed, stale files at indices `N+1..M` left over from an
earlier run keep the scan contiguous and index `M` — a stale image — is
included in the archive scan. -/
theorem download_preserves_stale_images :
    (∀ (fetch : String → Except String (List Nat)) (images : List String)
        (fs : Nat → Option (List Nat)) (j : Nat),
        j = 0 ∨ images.length < j →
        (download_chapter_fs fetch images fs).2 j = fs j)
  ∧ (∀ (content : String → List Nat) (images : List String)
        (fs : Nat → Option (List Nat)) (M : Nat),
        images.length < M → M ≤ 1000 →
        (∀ j, images.length < j → j ≤ M → (fs j).isSome = true) →
        M ∈ scanImages
          (fsEx (download_chapter_fs (fun u => Except.ok (content u)) images fs).2)) := by
  constructor
  · intro fetch images fs j hj
    exact downloadLoop_frame fetch images 1 fs j (by omega)
  · intro content images fs M hM h1000 hstale
    rw [mem_scanImages_iff]
    refine ⟨by omega, h1000, ?_⟩
    intro j hj1 hjM
    rw [fsEx]
    show ((downloadLoop (fun u => Except.ok (content u)) images 1 fs).2 j).isSome
      = true
    by_cases hle : j ≤ images.length
    · exact downloadLoop_writes content images 1 fs j hj1 (by omega)
    · rw [downloadLoop_frame _ images 1 fs j (by omega)]
      exact hstale j (by omega) hjM

/-- Witness for C9: one fresh image, stale files at indices 2 and 3; index 3
stays included in the scan, and index 5 is untouched by the download. -/
theorem download_preserves_stale_images_witness :
    (download_chapter_fs (fun _ => Except.ok [1])
        ["u"] (fun j => if 2 ≤ j ∧ j ≤ 3 then some [9] else none)).2 5 =
      (fun j : Nat => if 2 ≤ j ∧ j ≤ 3 then some [9] else none) 5
    ∧ 3 ∈ scanImages
        (fsEx (download_chapter_fs (fun u => Except.ok ((fun _ => [1]) u))
          ["u"] (fun j => if 2 ≤ j ∧ j ≤ 3 then some [9] else none)).2) :=
  ⟨download_preserves_stale_images.1 (fun _ => Except.ok [1]) ["u"]
      (fun j => if 2 ≤ j ∧ j ≤ 3 then some [9] else none) 5 (by decide),
   download_preserves_stale_images.2 (fun _ => [1]) ["u"]
      (fun j => if 2 ≤ j ∧ j ≤ 3 then some [9] else none) 3 (by decide) (by decide)
      (fun j hj1 hj2 => by
        have h1 : 1 < j := hj1
        interval_cases j <;> decide)⟩

lemma filterMap_eq_map_filter_isSome (f : HNode → Option String) (l : List HNode) :
    l.filterMap f =
      (l.filter (fun n => (f n).isSome)).map (fun n => (f n).getD "") := by
  induction l with
  | nil => rfl
  | cons x xs ih =>
    cases hf : f x with
    | none => simp [List.filterMap_cons, List.filter_cons, hf, ih]
    | some v => simp [List.filterMap_cons, List.filter_cons, hf, ih]

/-- **C3.** For any document, each extractor returns exactly the attribute
values of the containers whose selected element carries the target attribute
(`href` on the first `a` descendant of each `h3` for titles, `src` on the
`img` itself for images): the result is the map of the target value over the
document-ordered sublist of good containers — so it has exactly one value per
good container, containers missing the attribute (or lacking an `a`
descendant) are skipped without disturbing the relative order of the rest —
and when no container yields a target the result is the empty list, not an
error. -/
theorem extractor_document_order :
    (∀ doc : HForest,
        fetch_manga_ids_extract doc =
          ((findAllForest "h3" doc).filter (fun n => (titleTarget n).isSome)).map
            (fun n => (titleTarget n).getD ""))
  ∧ (∀ doc : HForest,
        (fetch_manga_ids_extract doc).length =
          ((findAllForest "h3" doc).filter (fun n => (titleTarget n).isSome)).length)
  ∧ (∀ doc : HForest,
        fetch_image_links_extract doc =
          ((findAllForest "img" doc).filter (fun n => (imgTarget n).isSome)).map
            (fun n => (imgTarget n).getD ""))
  ∧ (∀ doc : HForest,
        (fetch_image_links_extract doc).length =
          ((findAllForest "img" doc).filter (fun n => (imgTarget n).isSome)).length)
  ∧ (∀ doc : HForest,
        (∀ n ∈ findAllForest "h3" doc, titleTarget n = none) →
        fetch_manga_ids_extract doc = []) := by
  have hids : ∀ doc : HForest,
      fetch_manga_ids_extract doc = (findAllForest "h3" doc).filterMap titleTarget := by
    intro doc
    rw [fetch_manga_ids_extract, List.filterMap_filterMap]
    rfl
  have h1 : ∀ doc : HForest,
      fetch_manga_ids_extract doc =
        ((findAllForest "h3" doc).filter (fun n => (titleTarget n).isSome)).map
          (fun n => (titleTarget n).getD "") := by
    intro doc
    rw [hids, filterMap_eq_map_filter_isSome]
  have h3 : ∀ doc : HForest,
      fetch_image_links_extract doc =
        ((findAllForest "img" doc).filter (fun n => (imgTarget n).isSome)).map
          (fun n => (imgTarget n).getD "") := by
    intro doc
    rw [fetch_image_links_extract, filterMap_eq_map_filter_isSome]
    rfl
  refine ⟨h1, ?_, h3, ?_, ?_⟩
  · intro doc
    rw [h1, List.length_map]
  · intro doc
    rw [h3, List.length_map]
  · intro doc hnone
    rw [h1]
    rw [List.filter_eq_nil_iff.mpr ?_]
    · rfl
    · intro n hn
      rw [hnone n hn]
      simp

/-- Witness for C3: a document whose only `h3` has no `a` descendant yields
the empty extraction. -/
theorem extractor_document_order_witness :
    fetch_manga_ids_extract
        (HForest.cons (HNode.elem "h3" [] HForest.nil) HForest.nil) = [] :=
  extractor_document_order.2.2.2.2
    (HForest.cons (HNode.elem "h3" [] HForest.nil) HForest.nil)
    (fun n hn => by
      have hn' : n ∈ [HNode.elem "h3" [] HForest.nil] := hn
      cases hn' with
      | head => rfl
      | tail _ h => cases h)

end MangaCli
